import Mathlib

/-!
Shallow embedding of the PBR texture-map derivation pipeline
(`src/utils/textureUtils.ts`, `src/App.tsx`, `src/services/geminiService.ts`).

Images are modelled as RGBA byte buffers: a width, a height, and a flat
`data` function from byte index to byte value, mirroring the JS
`ImageData.data` array with layout `(x + y*width)*4 + channel`.
Floating-point arithmetic in the source is modelled exactly over `ℚ`
(and over `ℝ` where `Math.sqrt` appears).  Storing a computed value into
a `Uint8ClampedArray` slot follows ECMAScript `ToUint8Clamp`: clamp to
[0,255], then round to the nearest integer with ties to even.
-/

/-- An RGBA pixel buffer: `data i` is the byte at flat index `i`
(channel `i % 4` of pixel `i / 4`). -/
structure Image where
  width : ℕ
  height : ℕ
  data : ℕ → ℕ

/-- Round to the nearest integer, ties to even — the tie-breaking rule of
ECMAScript `ToUint8Clamp`, which governs stores into `Uint8ClampedArray`. -/
def roundEven (v : ℚ) : ℤ :=
  let f := ⌊v⌋
  if (f : ℚ) + 1/2 < v then f + 1
  else if v < (f : ℚ) + 1/2 then f
  else if Even f then f else f + 1

/-- ECMAScript `ToUint8Clamp`: clamp to [0,255] then round ties-to-even.
This is what happens when the JS code assigns a float to `data[i]`. -/
def toByteQ (v : ℚ) : ℕ :=
  if v ≤ 0 then 0
  else if 255 ≤ v then 255
  else (roundEven v).toNat

/-- Mean of the three colour channels of the pixel whose R byte sits at
flat index `base` — the `avg = (data[i] + data[i+1] + data[i+2]) / 3`
computed by the roughness, AO and height generators. -/
def avgAt (img : Image) (base : ℕ) : ℚ :=
  ((img.data base : ℚ) + img.data (base + 1) + img.data (base + 2)) / 3

/-- Embeds `generateRoughnessMap` (src/App.tsx texture utils, lines 420-445):
per pixel, `val = (255 - avg) * multiplier`, then the contrast boost
`val = ((val/255 - 0.5) * 1.5 + 0.5) * 255`, then
`Math.min(255, Math.max(0, val))` is stored into R, G and B; alpha is
left untouched. -/
def generateRoughnessMap (img : Image) (multiplier : ℚ) : Image :=
  { width := img.width
    height := img.height
    data := fun i =>
      if i % 4 = 3 then img.data i
      else
        let base := i / 4 * 4
        let avg := avgAt img base
        let val := (255 - avg) * multiplier
        let val2 := ((val / 255 - 0.5) * 1.5 + 0.5) * 255
        toByteQ (min 255 (max 0 val2)) }

/-- Embeds `generateAOMap` (src/App.tsx texture utils, lines 447-469):
per pixel, `val = avg < 100 ? (avg / 100) * 255 : 255`, stored into
R, G and B; alpha is left untouched. -/
def generateAOMap (img : Image) : Image :=
  { width := img.width
    height := img.height
    data := fun i =>
      if i % 4 = 3 then img.data i
      else
        let avg := avgAt img (i / 4 * 4)
        toByteQ (if avg < 100 then avg / 100 * 255 else 255) }

/-- Embeds `generateHeightMap` (src/App.tsx texture utils, lines 485-503):
per pixel, `val = ((avg/255 - 0.5) * 1.2 + 0.5) * 255`, then
`Math.min(255, Math.max(0, val))` is stored into R, G and B; alpha is
left untouched. -/
def generateHeightMap (img : Image) : Image :=
  { width := img.width
    height := img.height
    data := fun i =>
      if i % 4 = 3 then img.data i
      else
        let avg := avgAt img (i / 4 * 4)
        let val := ((avg / 255 - 0.5) * 1.2 + 0.5) * 255
        toByteQ (min 255 (max 0 val)) }

/-- Embeds `generateMetalnessMap` (src/App.tsx texture utils, lines 471-483):
a fresh canvas of the input's dimensions is filled with the solid colour
`rgb(val,val,val)` where `val = isMetal ? 255 : 0`; the fill makes every
pixel opaque (alpha 255).  The input's pixel data is never read. -/
def generateMetalnessMap (img : Image) (isMetal : Bool) : Image :=
  { width := img.width
    height := img.height
    data := fun i =>
      if i % 4 = 3 then 255
      else if isMetal then 255 else 0 }

/-- The offset range `-1..1` iterated by the two nested `for` loops of
`getSmoothHeight`. -/
def offsets : List ℤ := [-1, 0, 1]

/-- Embeds `getSmoothHeight` (src/App.tsx texture utils, lines 379-392):
for each offset pair, neighbour coordinates are clamped with
`Math.max(0, Math.min(width-1, x+ox))` (resp. height), the sample
`(data[px] + data[px+1] + data[px+2]) / 765.0` is accumulated, and the
total is divided by the count of samples taken. -/
def getSmoothHeight (img : Image) (x y : ℤ) : ℚ :=
  let samples := offsets.bind fun ox => offsets.map fun oy =>
    let nx := max 0 (min ((img.width : ℤ) - 1) (x + ox))
    let ny := max 0 (min ((img.height : ℤ) - 1) (y + oy))
    let px := (nx + ny * img.width).toNat * 4
    ((img.data px : ℚ) + img.data (px + 1) + img.data (px + 2)) / 765
  samples.sum / (samples.length : ℚ)

/-- The gradient computed by `generateNormalMap` at pixel (x,y)
(src/App.tsx texture utils, lines 399-406): `dx = (hL - hR) * strength`,
`dy = (hU - hD) * strength`, `dz = 1.0`. -/
def normalGrad (img : Image) (strength : ℚ) (x y : ℕ) : ℚ × ℚ × ℚ :=
  let hL := getSmoothHeight img ((x : ℤ) - 1) y
  let hR := getSmoothHeight img ((x : ℤ) + 1) y
  let hU := getSmoothHeight img x ((y : ℤ) - 1)
  let hD := getSmoothHeight img x ((y : ℤ) + 1)
  ((hL - hR) * strength, (hU - hD) * strength, 1)

/-- The real-valued R,G,B channel values computed by `generateNormalMap`
for pixel (x,y) before storage (src/App.tsx texture utils, lines
408-411): `len = Math.sqrt(dx*dx + dy*dy + dz*dz)` and each channel is
`((d / len) * 0.5 + 0.5) * 255`. -/
noncomputable def normalPixel (img : Image) (strength : ℚ) (x y : ℕ) : ℝ × ℝ × ℝ :=
  let g := normalGrad img strength x y
  let dx : ℝ := (g.1 : ℝ)
  let dy : ℝ := (g.2.1 : ℝ)
  let dz : ℝ := (g.2.2 : ℝ)
  let len := Real.sqrt (dx * dx + dy * dy + dz * dz)
  ((dx / len * 0.5 + 0.5) * 255, (dy / len * 0.5 + 0.5) * 255, (dz / len * 0.5 + 0.5) * 255)

/-- Round to the nearest integer with ties to even, over `ℝ` — the
`ToUint8Clamp` rounding applied to the real-valued channel outputs of the
normal-map generator. -/
noncomputable def roundEvenR (v : ℝ) : ℤ :=
  let f := ⌊v⌋
  if (f : ℝ) + 1/2 < v then f + 1
  else if v < (f : ℝ) + 1/2 then f
  else if Even f then f else f + 1

/-- ECMAScript `ToUint8Clamp` over `ℝ`: clamp to [0,255], round ties to
even. -/
noncomputable def toByteR (v : ℝ) : ℕ :=
  if v ≤ 0 then 0
  else if 255 ≤ v then 255
  else (roundEvenR v).toNat

/-- Embeds `generateNormalMap` (src/App.tsx texture utils, lines 362-418):
the output buffer has the input's dimensions; at flat index
`idx = (y*width + x)*4` the three channel values of `normalPixel` are
stored (via `Uint8ClampedArray` conversion) and the alpha byte is 255. -/
noncomputable def generateNormalMap (img : Image) (strength : ℚ) : Image :=
  { width := img.width
    height := img.height
    data := fun i =>
      let p := i / 4
      let c := normalPixel img strength (p % img.width) (p / img.width)
      if i % 4 = 0 then toByteR c.1
      else if i % 4 = 1 then toByteR c.2.1
      else if i % 4 = 2 then toByteR c.2.2
      else 255 }

/-- Per-pixel luminance as worded by the specification: `(R+G+B)/3/255`
for the pixel at integer coordinates (x,y). -/
def lumaSpec (img : Image) (x y : ℤ) : ℚ :=
  let px := (x + y * img.width).toNat * 4
  ((img.data px : ℚ) + img.data (px + 1) + img.data (px + 2)) / 3 / 255

/-- Smoothed height as worded by the specification: the mean, over the
3×3 neighbourhood of (x,y) with coordinates clamped to
[0,width-1]×[0,height-1], of the per-pixel luminance. -/
def smoothHeightSpec (img : Image) (x y : ℤ) : ℚ :=
  (offsets.bind fun ox => offsets.map fun oy =>
    lumaSpec img (max 0 (min ((img.width : ℤ) - 1) (x + ox)))
      (max 0 (min ((img.height : ℤ) - 1) (y + oy)))).sum / 9

/-- Normal-map channel values as worded by the specification: from the
smoothed heights at the four axis neighbours, `dx = (hL - hR)*strength`,
`dy = (hU - hD)*strength`, `dz = 1.0`; the vector is normalised to unit
length and each component `v` is written as `(v * 0.5 + 0.5) * 255`. -/
noncomputable def normalPixelSpec (img : Image) (strength : ℚ) (x y : ℕ) : ℝ × ℝ × ℝ :=
  let hL := smoothHeightSpec img ((x : ℤ) - 1) y
  let hR := smoothHeightSpec img ((x : ℤ) + 1) y
  let hU := smoothHeightSpec img x ((y : ℤ) - 1)
  let hD := smoothHeightSpec img x ((y : ℤ) + 1)
  let dx : ℝ := (((hL - hR) * strength : ℚ) : ℝ)
  let dy : ℝ := (((hU - hD) * strength : ℚ) : ℝ)
  let dz : ℝ := 1
  let n := Real.sqrt (dx ^ 2 + dy ^ 2 + dz ^ 2)
  ((dx / n * 0.5 + 0.5) * 255, (dy / n * 0.5 + 0.5) * 255, (dz / n * 0.5 + 0.5) * 255)

/-- The normal map as worded by the specification (C1): same dimensions
as the input, channel values from `normalPixelSpec`, alpha fixed at
255. -/
noncomputable def normalMapSpec (img : Image) (strength : ℚ) : Image :=
  { width := img.width
    height := img.height
    data := fun i =>
      let p := i / 4
      let c := normalPixelSpec img strength (p % img.width) (p / img.width)
      if i % 4 = 0 then toByteR c.1
      else if i % 4 = 1 then toByteR c.2.1
      else if i % 4 = 2 then toByteR c.2.2
      else 255 }

/-- Outcome of the external interactions inside `analyzeTextureMetadata`
(src/services/geminiService.ts).  The `await ai.models.generateContent`
call (lines 42-74) sits OUTSIDE the `try` that begins at line 76, so a
rejected request (`requestError`) is not caught there; the try/catch
covers only reading `response.text` and `JSON.parse` (`parseFailure`
when either throws).  `parsed r m` is a parsed JSON object whose
`suggestedRoughness` / `suggestedMetalness` fields each are either a
number (`some q`) or absent / not a number (`none`). -/
inductive MetaOutcome where
  | requestError : MetaOutcome
  | parseFailure : MetaOutcome
  | parsed : Option ℚ → Option ℚ → MetaOutcome

/-- Embeds `analyzeTextureMetadata` (src/services/geminiService.ts,
lines 37-86): a failure of the service request itself propagates out as
an exception (`Except.error`), because the `generateContent` call is
outside the try/catch; a throw inside the try (lines 76-85) yields the
defaults `{ suggestedRoughness: 0.6, suggestedMetalness: 0.0 }`, and a
parsed object keeps each field that is a number, substituting 0.6
resp. 0.0 for missing or non-numeric ones.  The first component is
`suggestedRoughness`, the second `suggestedMetalness`. -/
def analyzeTextureMetadata : MetaOutcome → Except Unit (ℚ × ℚ)
  | MetaOutcome.requestError => Except.error ()
  | MetaOutcome.parseFailure => Except.ok (0.6, 0)
  | MetaOutcome.parsed r m => Except.ok (r.getD 0.6, m.getD 0)

/-- JavaScript `x || d` on numbers: `x` is falsy exactly when it is 0
(NaN aside), in which case `d` is returned. -/
def jsOr (x d : ℚ) : ℚ := if x = 0 then d else x

theorem jsOr_zero (d : ℚ) : jsOr 0 d = d := by simp [jsOr]

theorem jsOr_of_ne (x d : ℚ) (h : x ≠ 0) : jsOr x d = x := by simp [jsOr, h]

/-- The per-invocation parameters `processAllMaps` (src/App.tsx, lines
84-114) derives from the metadata before running the five generators:
normal strength 2.5, roughness-generator multiplier
`(metadata.suggestedRoughness || 0.6) * 1.2`, metal flag
`(metadata.suggestedMetalness || 0) > 0.5`, and the updated material
settings `roughnessIntensity = metadata.suggestedRoughness || 0.6`,
`metalnessIntensity = metadata.suggestedMetalness || 0`. -/
structure PipelineParams where
  normalStrength : ℚ
  roughnessMultiplier : ℚ
  isMetal : Bool
  roughnessIntensity : ℚ
  metalnessIntensity : ℚ
  deriving DecidableEq

/-- Embeds the parameter plumbing of `processAllMaps` (src/App.tsx,
lines 90-103). -/
def processParams (meta : ℚ × ℚ) : PipelineParams :=
  { normalStrength := 2.5
    roughnessMultiplier := jsOr meta.1 0.6 * 1.2
    isMetal := decide (jsOr meta.2 0 > 0.5)
    roughnessIntensity := jsOr meta.1 0.6
    metalnessIntensity := jsOr meta.2 0 }

/-- Embeds the control flow of `processAllMaps` (src/App.tsx, lines
84-114): if `await analyzeTextureMetadata(albedoUrl)` throws, execution
jumps to the catch at lines 104-110, which records an error message and
generates no maps (`none`); otherwise the five generators run with the
parameters derived from the returned metadata. -/
def processAllMaps (o : MetaOutcome) : Option PipelineParams :=
  match analyzeTextureMetadata o with
  | Except.error _ => none
  | Except.ok meta => some (processParams meta)

/-- Roughness channel value as worded by the specification (C5):
`avg = mean(R,G,B)`, `val = (255 - avg) * multiplier`,
`val = ((val/255 - 0.5) * 1.5 + 0.5) * 255`, clamped to [0,255]. -/
def roughnessValSpec (r g b : ℕ) (m : ℚ) : ℚ :=
  let avg : ℚ := ((r : ℚ) + g + b) / 3
  let val := (255 - avg) * m
  max 0 (min 255 (((val / 255 - 0.5) * 1.5 + 0.5) * 255))

/-- Height channel value as worded by the specification (C6):
`avg = mean(R,G,B)`, `val = ((avg/255 - 0.5) * 1.2 + 0.5) * 255`,
clamped to [0,255]. -/
def heightValSpec (r g b : ℕ) : ℚ :=
  let avg : ℚ := ((r : ℚ) + g + b) / 3
  max 0 (min 255 (((avg / 255 - 0.5) * 1.2 + 0.5) * 255))

theorem min_max_clamp_comm (v : ℚ) : min 255 (max 0 v) = max 0 (min 255 v) := by
  simp only [min_def, max_def]
  split_ifs <;> linarith

theorem avgAt_nonneg (img : Image) (base : ℕ) : 0 ≤ avgAt img base := by
  unfold avgAt
  positivity

theorem roundEven_zero : roundEven 0 = 0 := by
  unfold roundEven
  norm_num

theorem toByteQ_of_nonneg_lt (v : ℚ) (h0 : 0 ≤ v) (h255 : v < 255) :
    toByteQ v = (roundEven v).toNat := by
  unfold toByteQ
  split_ifs with hle h2
  · have hv : v = 0 := le_antisymm hle h0
    rw [hv, roundEven_zero]
    rfl
  · linarith
  · rfl

/-- C2: for every pixel, with `avg` the mean of its R, G, B bytes, the
AO generator stores 255 in R, G and B when `avg ≥ 100`, and the
nearest integer (ties to even, the `Uint8ClampedArray` rounding) of
`avg/100 * 255` when `avg < 100`. -/
theorem ao_pixel_correct (img : Image) (p : ℕ) :
    (generateAOMap img).data (4 * p) =
        (if 100 ≤ ((img.data (4 * p) : ℚ) + img.data (4 * p + 1) + img.data (4 * p + 2)) / 3
          then 255
          else (roundEven
            (((img.data (4 * p) : ℚ) + img.data (4 * p + 1) + img.data (4 * p + 2)) / 3
              / 100 * 255)).toNat) ∧
      (generateAOMap img).data (4 * p + 1) = (generateAOMap img).data (4 * p) ∧
      (generateAOMap img).data (4 * p + 2) = (generateAOMap img).data (4 * p) := by
  have e0 : (4 * p) % 4 = 0 := by omega
  have e1 : (4 * p + 1) % 4 = 1 := by omega
  have e2 : (4 * p + 2) % 4 = 2 := by omega
  have b0 : 4 * p / 4 * 4 = 4 * p := by omega
  have b1 : (4 * p + 1) / 4 * 4 = 4 * p := by omega
  have b2 : (4 * p + 2) / 4 * 4 = 4 * p := by omega
  simp only [generateAOMap, e0, e1, e2, b0, b1, b2, reduceIte]
  rw [show ((img.data (4 * p) : ℚ) + img.data (4 * p + 1) + img.data (4 * p + 2)) / 3
      = avgAt img (4 * p) from rfl]
  refine ⟨?_, rfl, rfl⟩
  have hnn := avgAt_nonneg img (4 * p)
  by_cases h : avgAt img (4 * p) < 100
  · rw [if_pos h, if_neg (not_le.mpr h)]
    exact toByteQ_of_nonneg_lt _ (by positivity) (by linarith)
  · rw [if_neg h, if_pos (not_lt.mp h)]
    unfold toByteQ
    norm_num

/-- C5: for every pixel and every multiplier, the roughness generator
computes `avg = mean(R,G,B)`, `val = (255 - avg) * multiplier`, then
`val = ((val/255 - 0.5) * 1.5 + 0.5) * 255`, clamps to [0,255], and
stores the identical clamped value (as a byte) in R, G and B while
leaving the alpha channel unchanged. -/
theorem roughness_pixel_correct (img : Image) (m : ℚ) (p : ℕ) :
    ((generateRoughnessMap img m).data (4 * p) =
        toByteQ (roughnessValSpec (img.data (4 * p)) (img.data (4 * p + 1))
          (img.data (4 * p + 2)) m) ∧
      (generateRoughnessMap img m).data (4 * p + 1) = (generateRoughnessMap img m).data (4 * p) ∧
      (generateRoughnessMap img m).data (4 * p + 2) = (generateRoughnessMap img m).data (4 * p)) ∧
    (generateRoughnessMap img m).data (4 * p + 3) = img.data (4 * p + 3) := by
  have e0 : (4 * p) % 4 = 0 := by omega
  have e1 : (4 * p + 1) % 4 = 1 := by omega
  have e2 : (4 * p + 2) % 4 = 2 := by omega
  have e3 : (4 * p + 3) % 4 = 3 := by omega
  have b0 : 4 * p / 4 * 4 = 4 * p := by omega
  have b1 : (4 * p + 1) / 4 * 4 = 4 * p := by omega
  have b2 : (4 * p + 2) / 4 * 4 = 4 * p := by omega
  simp only [generateRoughnessMap, e0, e1, e2, e3, b0, b1, b2, reduceIte]
  refine ⟨⟨?_, rfl, rfl⟩, trivial⟩
  simp only [roughnessValSpec, avgAt]
  exact congrArg toByteQ (min_max_clamp_comm _)

/-- C6: for every pixel, the height generator computes
`avg = mean(R,G,B)`, `val = ((avg/255 - 0.5) * 1.2 + 0.5) * 255`,
clamps to [0,255], and stores the identical clamped value (as a byte)
in R, G and B. -/
theorem height_pixel_correct (img : Image) (p : ℕ) :
    (generateHeightMap img).data (4 * p) =
        toByteQ (heightValSpec (img.data (4 * p)) (img.data (4 * p + 1))
          (img.data (4 * p + 2))) ∧
      (generateHeightMap img).data (4 * p + 1) = (generateHeightMap img).data (4 * p) ∧
      (generateHeightMap img).data (4 * p + 2) = (generateHeightMap img).data (4 * p) := by
  have e0 : (4 * p) % 4 = 0 := by omega
  have e1 : (4 * p + 1) % 4 = 1 := by omega
  have e2 : (4 * p + 2) % 4 = 2 := by omega
  have b0 : 4 * p / 4 * 4 = 4 * p := by omega
  have b1 : (4 * p + 1) / 4 * 4 = 4 * p := by omega
  have b2 : (4 * p + 2) / 4 * 4 = 4 * p := by omega
  simp only [generateHeightMap, e0, e1, e2, b0, b1, b2, reduceIte]
  refine ⟨?_, rfl, rfl⟩
  simp only [heightValSpec, avgAt]
  exact congrArg toByteQ (min_max_clamp_comm _)

/-- A flat white 4×4 RGBA image: every byte (including alpha) is 255. -/
def flatWhite4 : Image := ⟨4, 4, fun _ => 255⟩

/-- A flat black 4×4 RGBA image: every byte is 0. -/
def flatBlack4 : Image := ⟨4, 4, fun _ => 0⟩

/-- C4: the metalness generator keeps the input's dimensions, stores the
uniform value 255 (metal) or 0 (non-metal) in every colour byte, and its
output does not depend on the input's pixel contents — any two inputs
with the same dimensions yield the same output. -/
theorem metalness_uniform (img : Image) (isMetal : Bool) (i : ℕ) (hi : i % 4 ≠ 3)
    (img2 : Image) (hw : img.width = img2.width) (hh : img.height = img2.height) :
    (generateMetalnessMap img isMetal).width = img.width ∧
    (generateMetalnessMap img isMetal).height = img.height ∧
    (generateMetalnessMap img isMetal).data i = (if isMetal then 255 else 0) ∧
    generateMetalnessMap img isMetal = generateMetalnessMap img2 isMetal := by
  refine ⟨rfl, rfl, ?_, ?_⟩
  · simp [generateMetalnessMap, hi]
  · unfold generateMetalnessMap
    rw [hw, hh]

theorem metalness_uniform_witness :
    (generateMetalnessMap flatWhite4 true).width = flatWhite4.width ∧
    (generateMetalnessMap flatWhite4 true).height = flatWhite4.height ∧
    (generateMetalnessMap flatWhite4 true).data 0 = (if true then 255 else 0) ∧
    generateMetalnessMap flatWhite4 true = generateMetalnessMap flatBlack4 true :=
  metalness_uniform flatWhite4 true 0 (by decide) flatBlack4 rfl rfl

/-- C7: each of the five derived maps has exactly the input's width and
height. -/
theorem maps_preserve_dimensions (img : Image) (strength mult : ℚ) (isMetal : Bool) :
    ((generateNormalMap img strength).width = img.width ∧
      (generateNormalMap img strength).height = img.height) ∧
    ((generateRoughnessMap img mult).width = img.width ∧
      (generateRoughnessMap img mult).height = img.height) ∧
    ((generateAOMap img).width = img.width ∧ (generateAOMap img).height = img.height) ∧
    ((generateMetalnessMap img isMetal).width = img.width ∧
      (generateMetalnessMap img isMetal).height = img.height) ∧
    ((generateHeightMap img).width = img.width ∧ (generateHeightMap img).height = img.height) :=
  ⟨⟨rfl, rfl⟩, ⟨rfl, rfl⟩, ⟨rfl, rfl⟩, ⟨rfl, rfl⟩, ⟨rfl, rfl⟩⟩

/-- Counterexample to C3 as stated: when the metadata-analysis service
request itself fails, the exception is NOT caught inside
`analyzeTextureMetadata` (the `generateContent` call is outside the
try), so it propagates to the catch of `processAllMaps`, which records
an error and produces no maps — the pipeline fails instead of
proceeding with the defaults. -/
theorem metadata_request_failure_aborts :
    analyzeTextureMetadata MetaOutcome.requestError = Except.error () ∧
    processAllMaps MetaOutcome.requestError = none :=
  ⟨rfl, rfl⟩

/-- C3 (amended): when the metadata-analysis step returns malformed
output — a response whose text fails to parse, or a parsed object with
missing / non-numeric fields — the pipeline does not fail and proceeds
with the fixed defaults: suggested roughness 0.6 (hence metal flag
`false`, material roughness setting 0.6, and roughness-generator
multiplier 0.6 * 1.2).  When the service request itself fails, however,
the exception propagates and the pipeline aborts with an error,
producing no maps. -/
theorem metadata_malformed_fallback :
    analyzeTextureMetadata MetaOutcome.parseFailure = Except.ok (0.6, 0) ∧
    analyzeTextureMetadata (MetaOutcome.parsed none none) = Except.ok (0.6, 0) ∧
    processAllMaps MetaOutcome.parseFailure = some (processParams (0.6, 0)) ∧
    processAllMaps (MetaOutcome.parsed none none) = some (processParams (0.6, 0)) ∧
    (processParams (0.6, 0)).isMetal = false ∧
    (processParams (0.6, 0)).roughnessIntensity = 0.6 ∧
    (processParams (0.6, 0)).roughnessMultiplier = 0.6 * 1.2 ∧
    processAllMaps MetaOutcome.requestError = none := by
  refine ⟨rfl, rfl, rfl, rfl, ?_, ?_, ?_, rfl⟩
  · show decide (jsOr 0 0 > 0.5) = false
    rw [jsOr_zero, decide_eq_false_iff_not]
    norm_num
  · show jsOr 0.6 0.6 = 0.6
    rw [jsOr_of_ne _ _ (by norm_num)]
  · show jsOr 0.6 0.6 * 1.2 = 0.6 * 1.2
    rw [jsOr_of_ne _ _ (by norm_num)]

/-- C10: a successfully returned suggested roughness of exactly 0 (a
valid value) is replaced by the default 0.6 — in the roughness
generator's multiplier and in the material settings — because JavaScript
`||` treats 0 as falsy; a returned suggested metalness of 0 makes the
pipeline parameters identical to those of the caught-fallback defaults
(0.6, 0). -/
theorem zero_metadata_indistinguishable :
    analyzeTextureMetadata (MetaOutcome.parsed (some 0) (some 0)) = Except.ok (0, 0) ∧
    processAllMaps (MetaOutcome.parsed (some 0) (some 0)) =
      processAllMaps MetaOutcome.parseFailure ∧
    (processParams (0, 0)).roughnessMultiplier = 0.6 * 1.2 ∧
    (processParams (0, 0)).roughnessIntensity = 0.6 := by
  refine ⟨rfl, ?_, ?_, ?_⟩
  · show some (processParams (0, 0)) = some (processParams (0.6, 0))
    have h : processParams (0, 0) = processParams (0.6, 0) := by
      unfold processParams
      simp only [jsOr_zero, jsOr_of_ne 0.6 0.6 (by norm_num : (0.6 : ℚ) ≠ 0)]
    rw [h]
  · show jsOr 0 0.6 * 1.2 = 0.6 * 1.2
    rw [jsOr_zero]
  · show jsOr 0 0.6 = 0.6
    rw [jsOr_zero]

set_option maxHeartbeats 1000000 in
theorem getSmoothHeight_eq_spec (img : Image) (x y : ℤ) :
    getSmoothHeight img x y = smoothHeightSpec img x y := by
  unfold getSmoothHeight smoothHeightSpec lumaSpec offsets
  simp only [List.bind, List.flatMap_cons, List.map_cons, List.map_nil, List.flatMap_nil,
    List.append_nil, List.sum_cons, List.sum_nil, List.length_cons, List.length_nil,
    List.cons_append, List.nil_append]
  push_cast
  ring

theorem normalPixel_eq_spec (img : Image) (s : ℚ) (x y : ℕ) :
    normalPixel img s x y = normalPixelSpec img s x y := by
  unfold normalPixel normalPixelSpec normalGrad
  simp only [getSmoothHeight_eq_spec, Rat.cast_one]
  have harg : ∀ a b : ℝ, a * a + b * b + (1 : ℝ) * 1 = a ^ 2 + b ^ 2 + 1 ^ 2 := by
    intro a b; ring
  rw [harg]

/-- C1: the normal-map generator agrees, pixel for pixel and byte for
byte, with the specification's description — smoothed height as the mean
over the clamped 3×3 neighbourhood of the luminance `(R+G+B)/3/255`,
gradient `dx = (hL-hR)*strength`, `dy = (hU-hD)*strength`, `dz = 1.0`,
normalisation to unit length, each component `v` written as
`(v * 0.5 + 0.5) * 255` into R, G, B, and alpha fixed at 255. -/
theorem generateNormalMap_matches_spec (img : Image) (s : ℚ) :
    generateNormalMap img s = normalMapSpec img s := by
  unfold generateNormalMap normalMapSpec
  congr 1
  funext i
  simp only [normalPixel_eq_spec]

theorem encode_decode_norm (dx dy dz : ℝ) (h : 0 < dx * dx + dy * dy + dz * dz) :
    Real.sqrt
      ((((dx / Real.sqrt (dx * dx + dy * dy + dz * dz) * 0.5 + 0.5) * 255 / 255 - 0.5) * 2) ^ 2
        + (((dy / Real.sqrt (dx * dx + dy * dy + dz * dz) * 0.5 + 0.5) * 255 / 255 - 0.5) * 2) ^ 2
        + (((dz / Real.sqrt (dx * dx + dy * dy + dz * dz) * 0.5 + 0.5) * 255 / 255 - 0.5) * 2) ^ 2)
      = 1 := by
  have hkey :
      (((dx / Real.sqrt (dx * dx + dy * dy + dz * dz) * 0.5 + 0.5) * 255 / 255 - 0.5) * 2) ^ 2
        + (((dy / Real.sqrt (dx * dx + dy * dy + dz * dz) * 0.5 + 0.5) * 255 / 255 - 0.5) * 2) ^ 2
        + (((dz / Real.sqrt (dx * dx + dy * dy + dz * dz) * 0.5 + 0.5) * 255 / 255 - 0.5) * 2) ^ 2
      = (dx * dx + dy * dy + dz * dz) / Real.sqrt (dx * dx + dy * dy + dz * dz) ^ 2 := by
    ring
  rw [hkey, Real.sq_sqrt h.le, div_self (ne_of_gt h), Real.sqrt_one]

/-- C8: for every pixel of the normal map, the vector decoded from the
computed channel values by `(c/255 - 0.5) * 2` has Euclidean norm
exactly 1 (in this exact-arithmetic model of the floating-point
computation). -/
theorem normal_decoded_unit_norm (img : Image) (s : ℚ) (x y : ℕ) :
    Real.sqrt ((((normalPixel img s x y).1 / 255 - 0.5) * 2) ^ 2
      + (((normalPixel img s x y).2.1 / 255 - 0.5) * 2) ^ 2
      + (((normalPixel img s x y).2.2 / 255 - 0.5) * 2) ^ 2) = 1 := by
  have h3 : ((normalGrad img s x y).2.2 : ℝ) = 1 := by
    rw [show (normalGrad img s x y).2.2 = 1 from rfl, Rat.cast_one]
  have hpos : 0 < ((normalGrad img s x y).1 : ℝ) * ((normalGrad img s x y).1 : ℝ)
      + ((normalGrad img s x y).2.1 : ℝ) * ((normalGrad img s x y).2.1 : ℝ)
      + ((normalGrad img s x y).2.2 : ℝ) * ((normalGrad img s x y).2.2 : ℝ) := by
    rw [h3]
    nlinarith [mul_self_nonneg ((normalGrad img s x y).1 : ℝ),
      mul_self_nonneg ((normalGrad img s x y).2.1 : ℝ)]
  exact encode_decode_norm _ _ _ hpos

set_option maxHeartbeats 1000000 in
theorem getSmoothHeight_flatWhite (x y : ℤ) : getSmoothHeight flatWhite4 x y = 1 := by
  unfold getSmoothHeight offsets flatWhite4
  simp only [List.bind, List.flatMap_cons, List.map_cons, List.map_nil, List.flatMap_nil,
    List.append_nil, List.sum_cons, List.sum_nil, List.length_cons, List.length_nil,
    List.cons_append, List.nil_append]
  norm_num

theorem normalGrad_flatWhite (s : ℚ) (x y : ℕ) : normalGrad flatWhite4 s x y = (0, 0, 1) := by
  unfold normalGrad
  simp [getSmoothHeight_flatWhite]

theorem normalPixel_flatWhite (s : ℚ) (x y : ℕ) :
    normalPixel flatWhite4 s x y = (127.5, 127.5, 255) := by
  unfold normalPixel
  rw [normalGrad_flatWhite]
  norm_num [Real.sqrt_one]

theorem floor_127_5 : ⌊(127.5 : ℝ)⌋ = 127 := by
  rw [Int.floor_eq_iff]
  norm_num

theorem toByteR_127_5 : toByteR 127.5 = 128 := by
  unfold toByteR roundEvenR
  rw [if_neg (by norm_num), if_neg (by norm_num)]
  rw [floor_127_5]
  rw [if_neg (by norm_num), if_neg (by norm_num), if_neg (by decide)]
  rfl

theorem toByteR_255 : toByteR 255 = 255 := by
  unfold toByteR
  rw [if_neg (by norm_num), if_pos (by norm_num)]

/-- C9: on the flat white 4×4 input, the normal map generated with
strength 2.5 stores the pixel (128, 128, 255, 255) at every position
(x,y): the gradient is zero, the vector (0,0,1) encodes to the real
values (127.5, 127.5, 255), and `Uint8ClampedArray` rounds 127.5 up to
the even byte 128. -/
theorem normal_flat_white (x y : ℕ) (hx : x < 4) (hy : y < 4) :
    (generateNormalMap flatWhite4 2.5).data ((y * 4 + x) * 4) = 128 ∧
    (generateNormalMap flatWhite4 2.5).data ((y * 4 + x) * 4 + 1) = 128 ∧
    (generateNormalMap flatWhite4 2.5).data ((y * 4 + x) * 4 + 2) = 255 ∧
    (generateNormalMap flatWhite4 2.5).data ((y * 4 + x) * 4 + 3) = 255 := by
  have m0 : ((y * 4 + x) * 4) % 4 = 0 := by omega
  have m1 : ((y * 4 + x) * 4 + 1) % 4 = 1 := by omega
  have m2 : ((y * 4 + x) * 4 + 2) % 4 = 2 := by omega
  have m3 : ((y * 4 + x) * 4 + 3) % 4 = 3 := by omega
  unfold generateNormalMap
  simp only [m0, m1, m2, m3, reduceIte, normalPixel_flatWhite]
  exact ⟨toByteR_127_5, toByteR_127_5, toByteR_255, rfl⟩

theorem normal_flat_white_witness :
    (0 < 4 ∧ 0 < 4) ∧
    ((generateNormalMap flatWhite4 2.5).data ((0 * 4 + 0) * 4) = 128 ∧
      (generateNormalMap flatWhite4 2.5).data ((0 * 4 + 0) * 4 + 1) = 128 ∧
      (generateNormalMap flatWhite4 2.5).data ((0 * 4 + 0) * 4 + 2) = 255 ∧
      (generateNormalMap flatWhite4 2.5).data ((0 * 4 + 0) * 4 + 3) = 255) :=
  ⟨⟨by norm_num, by norm_num⟩, normal_flat_white 0 0 (by norm_num) (by norm_num)⟩
